import Mathlib

/-!
Verification development for the arango filesystem-scan repository.

The repository has two algorithmic parts:
* a categorization engine (bucket tables, bucket scans, a 7 x 7 histogram
  of byte totals, found in the categories source file), and
* an ingestion pipeline (`directory_server.go`): a dispatcher that handles
  directory events synchronously, a worker pool for file events, a
  path-keyed directory cache, and an ArangoDB-backed document store whose
  query helpers live in `main.go`.

The shallow embedding below translates those functions into Lean.  Machine
`int64` values become `Int`, `float64` day counts become `ℚ` (the exact
value of `time.Since(t).Hours()/24`), the document store becomes an
explicit `StoreState` threaded through the operations, fallible store
calls consult a `StoreEnv` failure oracle and return `Option`, and
goroutine effects (spawns, stop signals) are recorded as counters.
-/

namespace Arango

/-- Go `BoundsElement`: one row of a bucket table (`Name`, `Description`,
`Value` = threshold, `Index` = the iota constant). -/
structure BoundsElement where
  Name : String
  Description : String
  Value : Int
  Index : Nat
deriving DecidableEq

/-- Go `BoundsSizes`: the size-bucket table, thresholds in bytes
(0, 1MiB, 10MiB, 100MiB, 1GiB, 10GiB, 100GiB). -/
def BoundsSizes : List BoundsElement := [
  { Name := "SizeAny", Description := "<100K", Index := 0, Value := 0 },
  { Name := "SizeGt1MB", Description := ">1MB", Index := 1, Value := 1024 * 1024 },
  { Name := "SizeGt10MB", Description := ">10MB", Index := 2, Value := 10 * 1024 * 1024 },
  { Name := "SizeGt100MB", Description := ">100MB", Index := 3, Value := 100 * 1024 * 1024 },
  { Name := "SizeGt1GB", Description := ">1GB", Index := 4, Value := 1024 * 1024 * 1024 },
  { Name := "SizeGt10GB", Description := ">10GB", Index := 5, Value := 10 * 1024 * 1024 * 1024 },
  { Name := "SizeGt100GB", Description := ">100GB", Index := 6, Value := 100 * 1024 * 1024 * 1024 }]

/-- Go `BoundsAges`: the age-bucket table, thresholds in days
(0, 30, 90, 180, 365, 730, 2555). -/
def BoundsAges : List BoundsElement := [
  { Name := "LessThirtyDays", Description := "<30 days", Index := 0, Value := 0 },
  { Name := "ThirtyDays", Description := "30 days", Index := 1, Value := 30 },
  { Name := "NinetyDays", Description := "90 days", Index := 2, Value := 90 },
  { Name := "SixMonths", Description := "6 mo", Index := 3, Value := 180 },
  { Name := "OneYear", Description := "1 yr", Index := 4, Value := 365 },
  { Name := "TwoYears", Description := "2 yr", Index := 5, Value := 730 },
  { Name := "SevenYears", Description := "7 yr", Index := 6, Value := 2555 }]

/-- `BoundsSizes[i].Value` (0 when `i` is out of range; the code only ever
uses `i ≤ 6`). -/
def sizeThreshold (i : Nat) : Int :=
  ((BoundsSizes.get? i).map (fun b => b.Value)).getD 0

/-- `BoundsAges[i].Value` (0 when `i` is out of range). -/
def ageThreshold (i : Nat) : Int :=
  ((BoundsAges.get? i).map (fun b => b.Value)).getD 0

/-- The descending loop of Go `sizeBucketFromFileSize`: starting at index
`n`, return the first index whose threshold is `≤ fileSize`; index 0 when
none matched (the Go loop condition `size > SizeAny` stops there). -/
def sizeScan (fileSize : Int) : Nat → Nat
  | 0 => 0
  | n + 1 => if fileSize ≥ sizeThreshold (n + 1) then n + 1 else sizeScan fileSize n

/-- Go `sizeBucketFromFileSize`: scan `BoundsSizes` from `SizeGt100GB`
(index 6) downwards. -/
def sizeBucketFromFileSize (fileSize : Int) : Nat :=
  sizeScan fileSize 6

/-- The descending loop of Go `ageBucketFromFileTime`.  The Go code
compares `time.Since(*fileTime).Hours()/24.0 >= float64(BoundsAges[age].Value)`;
`daysSince` is that elapsed-days quantity, modelled exactly in `ℚ`. -/
def ageScan (daysSince : ℚ) : Nat → Nat
  | 0 => 0
  | n + 1 => if daysSince ≥ (ageThreshold (n + 1) : ℚ) then n + 1 else ageScan daysSince n

/-- Go `ageBucketFromFileTime`: scan `BoundsAges` from `SevenYears`
(index 6) downwards over the elapsed days since the file's modified
time. -/
def ageBucketFromFileTime (daysSince : ℚ) : Nat :=
  ageScan daysSince 6

/-- The size-bucket index packaged as `Fin 7`, the index type of the
histogram matrix (`len(BoundsSizes) = 7`); the bound is the fact that the
descending scan never exceeds its starting index. -/
def sizeIndex (fileSize : Int) : Fin 7 :=
  ⟨sizeBucketFromFileSize fileSize, by
    have h : ∀ n, sizeScan fileSize n ≤ n := by
      intro n
      induction n with
      | zero => exact Nat.le_refl 0
      | succ k ih =>
          by_cases hc : fileSize ≥ sizeThreshold (k + 1)
          · simp [sizeScan, hc]
          · simp only [sizeScan, if_neg hc]
            exact Nat.le_succ_of_le ih
    exact Nat.lt_succ_of_le (h 6)⟩

/-- The age-bucket index packaged as `Fin 7` (`len(BoundsAges) = 7`). -/
def ageIndex (daysSince : ℚ) : Fin 7 :=
  ⟨ageBucketFromFileTime daysSince, by
    have h : ∀ n, ageScan daysSince n ≤ n := by
      intro n
      induction n with
      | zero => exact Nat.le_refl 0
      | succ k ih =>
          by_cases hc : daysSince ≥ (ageThreshold (k + 1) : ℚ)
          · simp [ageScan, hc]
          · simp only [ageScan, if_neg hc]
            exact Nat.le_succ_of_le ih
    exact Nat.lt_succ_of_le (h 6)⟩

/-- Go `Categories` (which embeds `CategoriesDto`): the 7 x 7 matrix of
cumulative byte totals `Values[ageBucket][sizeBucket]` plus `TotalSize`.
The fixed-size slice-of-slices is embedded as a total function on
`Fin 7 × Fin 7`. -/
structure Categories where
  Values : Fin 7 → Fin 7 → Int
  TotalSize : Int

/-- Go `NewCategories` / `newCategoryValues`: the all-zero
`len(BoundsAges) × len(BoundsSizes)` matrix with zero total. -/
def NewCategories : Categories :=
  { Values := fun _ _ => 0, TotalSize := 0 }

/-- Go `(categories *Categories) AddTo(lower)`: elementwise sum of the
`lower` matrix into the receiver plus summing `TotalSize`; the mutated
receiver is returned as the new value. -/
def AddTo (categories lower : Categories) : Categories :=
  { Values := fun ages sizes => categories.Values ages sizes + lower.Values ages sizes,
    TotalSize := categories.TotalSize + lower.TotalSize }

/-- Go `(categories *Categories) CategorizeFile(fileTime, fileSize)`:
adds `fileSize` to `Values[age][size]` for the file's buckets and to
`TotalSize`; `fileDays` is `time.Since(*fileTime)` in days. -/
def CategorizeFile (categories : Categories) (fileDays : ℚ) (fileSize : Int) : Categories :=
  { Values := fun i j =>
      if i = ageIndex fileDays ∧ j = sizeIndex fileSize then
        categories.Values i j + fileSize
      else categories.Values i j,
    TotalSize := categories.TotalSize + fileSize }

/-- Go `(categories *Categories) CategorizeByAgeAndSize(fileTime, fileSize)`:
deep-copies the full matrix, applies the same single-cell update to the
copy, and returns the new instance (the receiver is left untouched). -/
def CategorizeByAgeAndSize (categories : Categories) (fileDays : ℚ) (fileSize : Int) : Categories :=
  let categoryValues : Fin 7 → Fin 7 → Int := fun ages sizes => categories.Values ages sizes
  { Values := fun i j =>
      if i = ageIndex fileDays ∧ j = sizeIndex fileSize then
        categoryValues i j + fileSize
      else categoryValues i j,
    TotalSize := categories.TotalSize + fileSize }

/-- Sum of every entry of the histogram matrix. -/
def sumValues (categories : Categories) : Int :=
  ∑ i : Fin 7, ∑ j : Fin 7, categories.Values i j

/-- The `Categories` values obtainable from `NewCategories` by any
sequence of `CategorizeFile` and `AddTo` calls whose `AddTo` arguments
themselves have a `TotalSize` equal to the sum of their cells. -/
inductive ReachableCategories : Categories → Prop
  | new : ReachableCategories NewCategories
  | categorize (c : Categories) (d : ℚ) (s : Int) :
      ReachableCategories c → ReachableCategories (CategorizeFile c d s)
  | add (c lower : Categories) :
      ReachableCategories c → lower.TotalSize = sumValues lower →
      ReachableCategories (AddTo c lower)

/-- ArangoDB `driver.DocumentMeta`, reduced to the generated document
key (Go uses the key to build edge endpoint references). -/
structure DocumentMeta where
  key : Nat
deriving DecidableEq

/-- Go `File` (`main.go`): the file document stored in `fileobjects`. -/
structure File where
  Name : String
  FileSize : Int
  Modified : Int
deriving DecidableEq

/-- Go `FileHandlerPayload`: the walk event; `os.FileInfo` is reduced to
the fields the pipeline reads (size, modified time, directory flag). -/
structure FileHandlerPayload where
  FullPath : String
  size : Int
  modTime : Int
  isDir : Bool
deriving DecidableEq

/-- The ArangoDB collections the pipeline writes: `directories` documents
`(key, path)`, `fileobjects` documents `(key, file)`, `contains` edge
documents `(_from, _to)`, plus the key generator. -/
structure StoreState where
  directories : List (Nat × String)
  fileobjects : List (Nat × File)
  contains : List (String × String)
  nextKey : Nat
deriving DecidableEq

/-- Failure oracle for the store: which `CreateDocument` calls fail
(StoreError).  Lookups are modelled as pure reads of `StoreState`. -/
structure StoreEnv where
  dirCreateFails : String → Bool
  fileCreateFails : String → Bool
  edgeCreateFails : String → String → Bool

/-- Go `getDirectory` (`main.go`): AQL lookup of the first `directories`
document whose `path` equals the argument; `none` is the "no directory"
error. -/
def getDirectory (store : StoreState) (path : String) : Option DocumentMeta :=
  (store.directories.find? (fun d => d.2 == path)).map (fun d => DocumentMeta.mk d.1)

/-- `directories.CreateDocument`: append a new directory document and
return its meta, or fail per the oracle. -/
def createDirectoryDoc (env : StoreEnv) (store : StoreState) (path : String) :
    Option (DocumentMeta × StoreState) :=
  if env.dirCreateFails path then none
  else some (⟨store.nextKey⟩,
    { store with
        directories := store.directories ++ [(store.nextKey, path)],
        nextKey := store.nextKey + 1 })

/-- `fileobjects.CreateDocument`: append a new file document and return
its meta, or fail per the oracle. -/
def createFileDoc (env : StoreEnv) (store : StoreState) (file : File) :
    Option (DocumentMeta × StoreState) :=
  if env.fileCreateFails file.Name then none
  else some (⟨store.nextKey⟩,
    { store with
        fileobjects := store.fileobjects ++ [(store.nextKey, file)],
        nextKey := store.nextKey + 1 })

/-- Go `getEdge` (`main.go`): AQL existence check for a `contains` edge
with the given `_from` and `_to`. -/
def getEdge (store : StoreState) (fromRef toRef : String) : Bool :=
  (store.contains.find? (fun e => e.1 == fromRef && e.2 == toRef)).isSome

/-- `edges.CreateDocument`: append a new `contains` edge, or fail per the
oracle (no implicit dedup). -/
def createEdge (env : StoreEnv) (store : StoreState) (fromRef toRef : String) :
    Option StoreState :=
  if env.edgeCreateFails fromRef toRef then none
  else some { store with contains := store.contains ++ [(fromRef, toRef)] }

/-- Go `filepath.Dir` for the clean, absolute, slash-separated paths the
pipeline handles: drop the final path element and its separator ("/"
when nothing else remains). -/
def dirOf (p : String) : String :=
  match (p.data.reverse.dropWhile (fun c => c ≠ '/')) with
  | [] => "/"
  | [_] => "/"
  | _ :: tail => String.mk tail.reverse

/-- The `lruDirectoryCache` contents: a canonical-path-keyed map to
directory document metas.  TTL and LRU eviction are not modelled (no
claim depends on expiry); `Set` overwrites. -/
def cacheGet (cache : List (String × DocumentMeta)) (path : String) : Option DocumentMeta :=
  (cache.find? (fun e => e.1 == path)).map (fun e => e.2)

/-- `lruDirectoryCache.Set path meta ttl`: insert or overwrite. -/
def cacheSet (cache : List (String × DocumentMeta)) (path : String) (meta : DocumentMeta) :
    List (String × DocumentMeta) :=
  (path, meta) :: cache.filter (fun e => !(e.1 == path))

/-- The `DirectoryServer` singleton together with the package-level
mutable state it works on (`lruDirectoryCache`, the store collections).
Goroutine effects are recorded as counters: `dispatcherCount` counts
`go listen(ds)` spawns, `workerCount` counts `go processFilePayload(ds)`
spawns, `stopSignalsSent` counts sends on `stopChannel`.  Channel
contents are passed to the processing functions as explicit queues. -/
structure ServerState where
  running : Bool
  dispatcherCount : Nat
  workerCount : Nat
  stopSignalsSent : Nat
  totalDirectoriesProcessed : Nat
  totalFilesProcessed : Nat
  filesProcessed : Nat
  store : StoreState
  cache : List (String × DocumentMeta)
  log : List String
deriving DecidableEq

/-- The state built by `GetDirectoryServer`'s one-time initializer, with
empty package-level store and cache. -/
def initialServerState : ServerState :=
  { running := false
    dispatcherCount := 0
    workerCount := 0
    stopSignalsSent := 0
    totalDirectoriesProcessed := 0
    totalFilesProcessed := 0
    filesProcessed := 0
    store := { directories := [], fileobjects := [], contains := [], nextKey := 0 }
    cache := []
    log := [] }

/-- Go `init()`: `ParallelFilePayload = 5 * runtime.NumCPU() / 6`
(integer division, no lower clamp). -/
def ParallelFilePayload (numCPU : Nat) : Nat :=
  5 * numCPU / 6

/-- Go `(ds *DirectoryServer) Start()`: under the mutex, if not running,
mark running, spawn one `listen` dispatcher and `ParallelFilePayload`
workers; otherwise do nothing. -/
def Start (numCPU : Nat) (ds : ServerState) : ServerState :=
  if ds.running then ds
  else
    { ds with
        running := true
        dispatcherCount := ds.dispatcherCount + 1
        workerCount := ds.workerCount + ParallelFilePayload numCPU }

/-- Go `(ds *DirectoryServer) Stop()`: under the mutex, if running, mark
not running and send one signal on `stopChannel`; otherwise do nothing. -/
def Stop (ds : ServerState) : ServerState :=
  if ds.running then
    { ds with running := false, stopSignalsSent := ds.stopSignalsSent + 1 }
  else ds

/-- The parent resolution of Go `processDirectoryPayload`: cache lookup
first, store lookup on a miss; `none` is the Go state `err != nil`
(`some` means the parent meta is in hand and `err == nil`). -/
def resolveParent (store : StoreState) (cache : List (String × DocumentMeta))
    (parent : String) : Option DocumentMeta :=
  match cacheGet cache parent with
  | some m => some m
  | none => getDirectory store parent

/-- The edge phase of Go `processDirectoryPayload`: resolve the parent;
when this call `created` the node and the parent resolved
(`created && err == nil`), create the parent→child edge only if
`getEdge` finds no equivalent edge, logging a create failure. -/
def processDirectoryEdge (env : StoreEnv) (s : ServerState)
    (filePayload : FileHandlerPayload) (currentDirectoryMeta : DocumentMeta)
    (created : Bool) : ServerState :=
  match resolveParent s.store s.cache (dirOf filePayload.FullPath) with
  | none => s
  | some parentDirectoryMeta =>
      if created then
        if getEdge s.store (("directories/") ++ toString parentDirectoryMeta.key)
            (("directories/") ++ toString currentDirectoryMeta.key) then s
        else
          match createEdge env s.store (("directories/") ++ toString parentDirectoryMeta.key)
              (("directories/") ++ toString currentDirectoryMeta.key) with
          | none => { s with log := s.log ++ [("failed creating edge ")] }
          | some store' => { s with store := store' }
      else s

/-- The tail of Go `processDirectoryPayload` after the current node is
resolved or created: cache it under its full path, then run the
parent/edge phase. -/
def processDirectoryTail (env : StoreEnv) (s : ServerState)
    (filePayload : FileHandlerPayload) (currentDirectoryMeta : DocumentMeta)
    (created : Bool) : ServerState :=
  processDirectoryEdge env
    { s with cache := cacheSet s.cache filePayload.FullPath currentDirectoryMeta }
    filePayload currentDirectoryMeta created

/-- Go `processDirectoryPayload`: increment the directory counter;
ensure-or-create the directory node for `FullPath` (store lookup, then
`CreateDocument` on miss — on create failure log and return); cache the
result under `FullPath`; resolve the parent (cache, then store lookup);
if this call created the node and the parent resolved (`err == nil`),
create the parent→child edge only when `getEdge` finds no equivalent
edge (logging a create failure). -/
def processDirectoryPayload (env : StoreEnv) (s : ServerState)
    (filePayload : FileHandlerPayload) : ServerState :=
  let s := { s with totalDirectoriesProcessed := s.totalDirectoriesProcessed + 1 }
  match getDirectory s.store filePayload.FullPath with
  | some currentDirectoryMeta =>
      processDirectoryTail env s filePayload currentDirectoryMeta false
  | none =>
      match createDirectoryDoc env s.store filePayload.FullPath with
      | none =>
          { s with log := s.log ++ [("failed creating directory ") ++ filePayload.FullPath] }
      | some (currentDirectoryMeta, store') =>
          processDirectoryTail env { s with store := store' } filePayload
            currentDirectoryMeta true

/-- One iteration of the Go `processFilePayload` worker loop body on one
payload.  Returns the new state and whether the loop continues: on any
create failure the Go code logs and executes `return`, which exits the
whole worker goroutine, so the flag is `false` there.  Note the cache is
read and written under the key `filePayload.FullPath` (the file's own
path), exactly as in the source. -/
def processFileStep (env : StoreEnv) (s : ServerState)
    (filePayload : FileHandlerPayload) : ServerState × Bool :=
  let s := { s with
      totalFilesProcessed := s.totalFilesProcessed + 1
      filesProcessed := s.filesProcessed + 1 }
  let parentResolved : Option (ServerState × DocumentMeta) :=
    match cacheGet s.cache filePayload.FullPath with
    | some m => some (s, m)
    | none =>
        match getDirectory s.store (dirOf filePayload.FullPath) with
        | some m =>
            some ({ s with cache := cacheSet s.cache filePayload.FullPath m }, m)
        | none =>
            match createDirectoryDoc env s.store (dirOf filePayload.FullPath) with
            | none => none
            | some (m, store') =>
                some ({ s with
                          store := store'
                          cache := cacheSet s.cache filePayload.FullPath m }, m)
  match parentResolved with
  | none =>
      ({ s with log := s.log ++ [("failed creating parent directory ") ++ dirOf filePayload.FullPath] },
        false)
  | some (s, parentDirectoryMeta) =>
      let file : File :=
        { Name := filePayload.FullPath, FileSize := filePayload.size,
          Modified := filePayload.modTime }
      match createFileDoc env s.store file with
      | none =>
          ({ s with log := s.log ++ [("failed creating file ") ++ file.Name] }, false)
      | some (fileMeta, store') =>
          let s := { s with store := store' }
          let fromRef := ("directories/") ++ toString parentDirectoryMeta.key
          let toRef := ("fileobjects/") ++ toString fileMeta.key
          match createEdge env s.store fromRef toRef with
          | none =>
              ({ s with log := s.log ++ [("failed creating edge ") ++ fromRef ++ toRef] }, false)
          | some store'' => ({ s with store := store'' }, true)

/-- Go `processFilePayload`: the worker goroutine's `for` loop, run over
a finite queue of file payloads (the contents of `filePayloadChannel`).
Processing stops early when an iteration executed `return`. -/
def processFilePayload (env : StoreEnv) (s : ServerState) :
    List FileHandlerPayload → ServerState
  | [] => s
  | filePayload :: rest =>
      match processFileStep env s filePayload with
      | (s', true) => processFilePayload env s' rest
      | (s', false) => s'

/-- Number of `directories` documents whose `path` is `p`. -/
def countDirNodes (store : StoreState) (p : String) : Nat :=
  (store.directories.filter (fun d => d.2 == p)).length

/-- Number of `contains` edges whose `_to` is `ref`. -/
def countEdgesTo (store : StoreState) (ref : String) : Nat :=
  (store.contains.filter (fun e => e.2 == ref)).length

/-- A store environment in which every create operation succeeds. -/
def noFailEnv : StoreEnv :=
  { dirCreateFails := fun _ => false
    fileCreateFails := fun _ => false
    edgeCreateFails := fun _ _ => false }

/-- Worker-failure scenario: creating the file document for
`/d/a.txt` fails (StoreError); everything else succeeds. -/
def c3Env : StoreEnv :=
  { dirCreateFails := fun _ => false
    fileCreateFails := fun p => p == ("/d/a.txt")
    edgeCreateFails := fun _ _ => false }

/-- Worker-failure scenario: the parent directory `/d` already exists in
the store (created by the dispatcher). -/
def c3State : ServerState :=
  { initialServerState with
      store := { directories := [(0, "/d")], fileobjects := [], contains := [], nextKey := 1 } }

/-- First file event taken by the worker (its file-create fails). -/
def c3PayloadA : FileHandlerPayload :=
  { FullPath := "/d/a.txt", size := 10, modTime := 0, isDir := false }

/-- Second file event in the worker queue (its file-create would
succeed). -/
def c3PayloadB : FileHandlerPayload :=
  { FullPath := "/d/b.txt", size := 20, modTime := 0, isDir := false }

/-- The worker loop run on the two-event queue under `c3Env`. -/
def c3Result : ServerState :=
  processFilePayload c3Env c3State [c3PayloadA, c3PayloadB]

/-- Cache-key scenario: the dispatcher's directory event for `/data/a`. -/
def c5DirPayload : FileHandlerPayload :=
  { FullPath := "/data/a", size := 0, modTime := 0, isDir := true }

/-- Cache-key scenario: a subsequent file event beneath `/data/a`. -/
def c5FilePayload : FileHandlerPayload :=
  { FullPath := "/data/a/f.txt", size := 2097152, modTime := 40, isDir := false }

/-- State after the dispatcher processed the `/data/a` directory event
from the empty initial state. -/
def c5AfterDir : ServerState :=
  processDirectoryPayload noFailEnv initialServerState c5DirPayload

/-- State after a worker then processed the `/data/a/f.txt` file
event. -/
def c5AfterFile : ServerState :=
  processFilePayload noFailEnv c5AfterDir [c5FilePayload]

/-- Concrete directory payload for the ensure-directory idempotence
witness. -/
def c6Payload : FileHandlerPayload :=
  { FullPath := "/data", size := 0, modTime := 0, isDir := true }

/-! ## Bucket-scan lemmas -/

theorem sizeScan_le (fileSize : Int) : ∀ n, sizeScan fileSize n ≤ n := by
  intro n
  induction n with
  | zero => exact Nat.le_refl 0
  | succ k ih =>
      by_cases hc : fileSize ≥ sizeThreshold (k + 1)
      · simp [sizeScan, hc]
      · simp only [sizeScan, if_neg hc]
        exact Nat.le_succ_of_le ih

theorem ageScan_le (daysSince : ℚ) : ∀ n, ageScan daysSince n ≤ n := by
  intro n
  induction n with
  | zero => exact Nat.le_refl 0
  | succ k ih =>
      by_cases hc : daysSince ≥ (ageThreshold (k + 1) : ℚ)
      · simp [ageScan, hc]
      · simp only [ageScan, if_neg hc]
        exact Nat.le_succ_of_le ih

theorem sizeScan_threshold_le (fileSize : Int) (h0 : 0 ≤ fileSize) :
    ∀ n, sizeThreshold (sizeScan fileSize n) ≤ fileSize := by
  intro n
  induction n with
  | zero =>
      have h : sizeThreshold 0 = 0 := rfl
      simpa [sizeScan, h] using h0
  | succ k ih =>
      by_cases hc : fileSize ≥ sizeThreshold (k + 1)
      · simp only [sizeScan, if_pos hc]
        exact hc
      · simpa [sizeScan, hc] using ih

theorem ageScan_threshold_le (daysSince : ℚ) (h0 : 0 ≤ daysSince) :
    ∀ n, (ageThreshold (ageScan daysSince n) : ℚ) ≤ daysSince := by
  intro n
  induction n with
  | zero =>
      have h : ageThreshold 0 = 0 := rfl
      simpa [ageScan, h] using h0
  | succ k ih =>
      by_cases hc : daysSince ≥ (ageThreshold (k + 1) : ℚ)
      · simp only [ageScan, if_pos hc]
        exact hc
      · simpa [ageScan, hc] using ih

theorem sizeScan_maximal (fileSize : Int) :
    ∀ n i, i ≤ n → sizeThreshold i ≤ fileSize → i ≤ sizeScan fileSize n := by
  intro n
  induction n with
  | zero => intro i hi _; exact hi
  | succ k ih =>
      intro i hi hthr
      by_cases hc : fileSize ≥ sizeThreshold (k + 1)
      · simpa [sizeScan, hc] using hi
      · have hik : i ≤ k := by
          rcases Nat.lt_or_ge i (k + 1) with h | h
          · exact Nat.lt_succ_iff.mp h
          · exfalso
            have : i = k + 1 := Nat.le_antisymm hi h
            exact hc (this ▸ hthr)
        simpa [sizeScan, hc] using ih i hik hthr

theorem ageScan_maximal (daysSince : ℚ) :
    ∀ n i, i ≤ n → (ageThreshold i : ℚ) ≤ daysSince → i ≤ ageScan daysSince n := by
  intro n
  induction n with
  | zero => intro i hi _; exact hi
  | succ k ih =>
      intro i hi hthr
      by_cases hc : daysSince ≥ (ageThreshold (k + 1) : ℚ)
      · simpa [ageScan, hc] using hi
      · have hik : i ≤ k := by
          rcases Nat.lt_or_ge i (k + 1) with h | h
          · exact Nat.lt_succ_iff.mp h
          · exfalso
            have : i = k + 1 := Nat.le_antisymm hi h
            exact hc (this ▸ hthr)
        simpa [ageScan, hc] using ih i hik hthr

/-! ## C1 -/

/-- C1: for every value `v ≥ 0`, `sizeBucketFromFileSize` returns the
largest index `i ≤ 6` with `BoundsSizes[i].Value ≤ v`, and
`ageBucketFromFileTime` returns the largest index `i ≤ 6` with
`BoundsAges[i].Value ≤ v` days (ties at an exact threshold resolve to the
higher bucket because the scans compare with `≥`); in particular
`sizeBucket 0 = SizeAny`, `sizeBucket 1048575 = SizeAny`,
`sizeBucket 1048576 = SizeGt1MB`, `ageBucket 29 = AnyAge`,
`ageBucket 30 = ThirtyDays`. -/
theorem c1_bucket_lookup_greatest :
    (∀ v : Int, 0 ≤ v →
      sizeThreshold (sizeBucketFromFileSize v) ≤ v ∧
      ∀ i, i < 7 → sizeThreshold i ≤ v → i ≤ sizeBucketFromFileSize v) ∧
    (∀ d : ℚ, 0 ≤ d →
      (ageThreshold (ageBucketFromFileTime d) : ℚ) ≤ d ∧
      ∀ i, i < 7 → (ageThreshold i : ℚ) ≤ d → i ≤ ageBucketFromFileTime d) ∧
    sizeBucketFromFileSize 0 = 0 ∧
    sizeBucketFromFileSize 1048575 = 0 ∧
    sizeBucketFromFileSize 1048576 = 1 ∧
    ageBucketFromFileTime 29 = 0 ∧
    ageBucketFromFileTime 30 = 1 := by
  refine ⟨?_, ?_, by decide, by decide, by decide, ?_, ?_⟩
  · intro v hv
    exact ⟨sizeScan_threshold_le v hv 6,
      fun i hi hthr => sizeScan_maximal v 6 i (Nat.lt_succ_iff.mp hi) hthr⟩
  · intro d hd
    exact ⟨ageScan_threshold_le d hd 6,
      fun i hi hthr => ageScan_maximal d 6 i (Nat.lt_succ_iff.mp hi) hthr⟩
  · decide
  · decide

/-- Witness for C1 at concrete inputs. -/
theorem c1_witness :
    (0 : Int) ≤ 10485760 ∧
    sizeThreshold (sizeBucketFromFileSize 10485760) ≤ 10485760 ∧
    (6 : Nat) ≤ sizeBucketFromFileSize 107374182400 ∧
    (0 : ℚ) ≤ 365 ∧
    (ageThreshold (ageBucketFromFileTime 365) : ℚ) ≤ 365 :=
  ⟨by decide,
    (c1_bucket_lookup_greatest.1 10485760 (by decide)).1,
    (c1_bucket_lookup_greatest.1 107374182400 (by decide)).2 6 (by decide) (by decide),
    by norm_num,
    (c1_bucket_lookup_greatest.2.1 365 (by norm_num)).1⟩

/-! ## C10 -/

/-- C10: for every `int64` file size, including negative values,
`sizeBucketFromFileSize` returns an index in `[0, 6]`, and for every file
time (past or future, i.e. every rational day count, including negative
ones) `ageBucketFromFileTime` returns an index in `[0, 6]`; the `Fin 7`
indices `CategorizeFile` and `CategorizeByAgeAndSize` use to address the
`7 × 7` matrix carry exactly these values, so the matrix indexing is
always within bounds. -/
theorem c10_bucket_indices_within_bounds :
    (∀ fileSize : Int, sizeBucketFromFileSize fileSize ≤ 6) ∧
    (∀ daysSince : ℚ, ageBucketFromFileTime daysSince ≤ 6) ∧
    (∀ fileSize : Int, (sizeIndex fileSize : Nat) = sizeBucketFromFileSize fileSize) ∧
    (∀ daysSince : ℚ, (ageIndex daysSince : Nat) = ageBucketFromFileTime daysSince) :=
  ⟨fun fileSize => sizeScan_le fileSize 6,
    fun daysSince => ageScan_le daysSince 6,
    fun _ => rfl, fun _ => rfl⟩

/-! ## C2 -/

/-- C2: the histogram returned by `CategorizeByAgeAndSize h t s` equals
`h` at every cell except `[ageBucket t][sizeBucket s]`, which is larger
by exactly `s`, and its `TotalSize` is larger by exactly `s`.  (The
receiver `h` is a value of the pure embedding, hence untouched by
construction; the Go code achieves the same by deep-copying the matrix
before the write.) -/
theorem c2_categorizeByAgeAndSize_frame (h : Categories) (t : ℚ) (s : Int) :
    (CategorizeByAgeAndSize h t s).TotalSize = h.TotalSize + s ∧
    ∀ i j : Fin 7,
      (CategorizeByAgeAndSize h t s).Values i j =
        h.Values i j +
          (if (i : Nat) = ageBucketFromFileTime t ∧ (j : Nat) = sizeBucketFromFileSize s
            then s else 0) := by
  refine ⟨rfl, ?_⟩
  intro i j
  have e1 : ((i : Nat) = ageBucketFromFileTime t) = (i = ageIndex t) := by
    simp only [eq_iff_iff]
    exact ⟨fun hv => Fin.ext hv, fun hv => by rw [hv]; rfl⟩
  have e2 : ((j : Nat) = sizeBucketFromFileSize s) = (j = sizeIndex s) := by
    simp only [eq_iff_iff]
    exact ⟨fun hv => Fin.ext hv, fun hv => by rw [hv]; rfl⟩
  simp only [e1, e2, CategorizeByAgeAndSize]
  by_cases h1 : i = ageIndex t <;> by_cases h2 : j = sizeIndex s <;> simp [h1, h2]

/-! ## C7 -/

/-- C7: `AddTo` is commutative and associative over histograms (which all
share the fixed `7 × 7` shape): `a.AddTo(b)` and `b.AddTo(a)` evaluated
from the same initial values have elementwise-equal cell matrices, their
`TotalSize` is the sum of both totals, and `AddTo` is associative. -/
theorem c7_addTo_comm_assoc (a b c : Categories) :
    (∀ i j : Fin 7, (AddTo a b).Values i j = (AddTo b a).Values i j) ∧
    (AddTo a b).TotalSize = a.TotalSize + b.TotalSize ∧
    (AddTo b a).TotalSize = a.TotalSize + b.TotalSize ∧
    AddTo (AddTo a b) c = AddTo a (AddTo b c) := by
  refine ⟨?_, rfl, ?_, ?_⟩
  · intro i j
    simp [AddTo]
    ring
  · simp [AddTo]
    ring
  · simp only [AddTo, Categories.mk.injEq]
    constructor
    · funext i j
      ring
    · ring

/-! ## C9 -/

theorem sumValues_single_cell_add (f : Fin 7 → Fin 7 → Int) (a b : Fin 7) (s : Int) :
    (∑ i : Fin 7, ∑ j : Fin 7, if i = a ∧ j = b then f i j + s else f i j) =
      (∑ i : Fin 7, ∑ j : Fin 7, f i j) + s := by
  have hsplit : ∀ i j : Fin 7,
      (if i = a ∧ j = b then f i j + s else f i j) =
        f i j + (if i = a then (if j = b then s else 0) else 0) := by
    intro i j
    by_cases h1 : i = a <;> by_cases h2 : j = b <;> simp [h1, h2]
  simp only [hsplit, Finset.sum_add_distrib]
  congr 1
  have hinner : ∀ i : Fin 7,
      (∑ j : Fin 7, if i = a then (if j = b then s else 0) else 0) =
        (if i = a then s else 0) := by
    intro i
    by_cases h1 : i = a <;> simp [h1]
  simp [hinner]

/-- C9: every `Categories` value obtained from `NewCategories` by any
sequence of `CategorizeFile` and `AddTo` calls (where every `AddTo`
argument itself satisfies the invariant; all histograms share the fixed
`7 × 7` shape) has `TotalSize` equal to the sum of all entries of its
`Values` matrix. -/
theorem c9_totalSize_invariant (c : Categories) (hc : ReachableCategories c) :
    c.TotalSize = sumValues c := by
  induction hc with
  | new => simp [NewCategories, sumValues]
  | categorize c d s _ ih =>
      show c.TotalSize + s = sumValues (CategorizeFile c d s)
      rw [ih]
      unfold sumValues CategorizeFile
      rw [sumValues_single_cell_add]
  | add c lower _ hlower ih =>
      show c.TotalSize + lower.TotalSize = sumValues (AddTo c lower)
      rw [ih, hlower]
      unfold sumValues AddTo
      simp [Finset.sum_add_distrib]

/-- Witness for C9: the invariant evaluated on a concrete reachable
histogram. -/
theorem c9_witness :
    (CategorizeFile NewCategories 40 2097152).TotalSize =
      sumValues (CategorizeFile NewCategories 40 2097152) :=
  c9_totalSize_invariant (CategorizeFile NewCategories 40 2097152)
    (ReachableCategories.categorize NewCategories 40 2097152 ReachableCategories.new)

/-! ## C4 -/

/-- C4 counterexample: with available parallelism `P = 1` (which
satisfies `P ≥ 1`), `ParallelFilePayload = 5 * 1 / 6 = 0`, so `Start`
spawns zero workers — the claimed "never less than 1" clamp does not
exist in the code. -/
theorem c4_counterexample :
    ParallelFilePayload 1 = 0 ∧
    (Start 1 initialServerState).running = true ∧
    (Start 1 initialServerState).workerCount = 0 ∧
    ¬(1 ≤ ParallelFilePayload 1) := by
  decide

/-- C4 amended: for every available-parallelism value `P`, `Start` on a
non-running server spawns a worker pool of exactly `5 * P / 6` workers
(integer arithmetic) and one dispatcher, with no minimum: the pool is
non-empty if and only if `P ≥ 2`. -/
theorem c4_amended_worker_pool_size (numCPU : Nat) (ds : ServerState)
    (h : ds.running = false) :
    (Start numCPU ds).workerCount = ds.workerCount + 5 * numCPU / 6 ∧
    (Start numCPU ds).dispatcherCount = ds.dispatcherCount + 1 ∧
    (1 ≤ ParallelFilePayload numCPU ↔ 2 ≤ numCPU) := by
  refine ⟨?_, ?_, ?_⟩
  · simp [Start, h, ParallelFilePayload]
  · simp [Start, h]
  · unfold ParallelFilePayload
    omega

/-- Witness for C4's amended claim at `P = 6` on the initial state. -/
theorem c4_witness :
    initialServerState.running = false ∧
    (Start 6 initialServerState).workerCount = initialServerState.workerCount + 5 * 6 / 6 ∧
    (1 ≤ ParallelFilePayload 6 ↔ 2 ≤ 6) :=
  ⟨rfl, (c4_amended_worker_pool_size 6 initialServerState rfl).1,
    (c4_amended_worker_pool_size 6 initialServerState rfl).2.2⟩

/-! ## C8 -/

/-- C8: `Stop` on a non-running server is a no-op — every field of the
state is unchanged and no stop signal is sent; likewise `Start` on an
already-running server spawns nothing and changes nothing. -/
theorem c8_stop_start_idempotent (ds : ServerState) :
    (ds.running = false → Stop ds = ds) ∧
    (ds.running = true → ∀ numCPU, Start numCPU ds = ds) := by
  constructor
  · intro h
    simp [Stop, h]
  · intro h numCPU
    simp [Start, h]

/-- Witness for C8: `Stop` on the (stopped) initial state and `Start` on
a running state are both no-ops. -/
theorem c8_witness :
    Stop initialServerState = initialServerState ∧
    Start 4 { initialServerState with running := true } =
      { initialServerState with running := true } :=
  ⟨(c8_stop_start_idempotent initialServerState).1 rfl,
    (c8_stop_start_idempotent { initialServerState with running := true }).2 rfl 4⟩

/-! ## C3 -/

/-- C3: evaluation of the worker loop at the failing input.  With two
file events queued and the store failing only the first event's
file-document creation, the Go worker logs the failure and then executes
`return`, which exits the whole worker goroutine: the second event is
never taken (`totalFilesProcessed = 1`) and its file node is never
created (`fileobjects` stays empty) even though its own creation would
have succeeded — the worker does not continue with subsequent file
events as the claim states. -/
theorem c3_worker_loop_exits_on_failure :
    c3Result.totalFilesProcessed = 1 ∧
    c3Result.store.fileobjects = [] ∧
    c3Result.log = [("failed creating file ") ++ ("/d/a.txt")] ∧
    c3Env.fileCreateFails ("/d/b.txt") = false := by
  decide

/-! ## C5 -/

/-- C5: evaluation at the failing input.  The dispatcher caches the
`/data/a` node under its canonical path, but the worker processing
`/data/a/f.txt` looks the cache up under the file's own full path (a
miss, so the dispatcher's entry is never hit for files beneath the
directory) and then stores the parent's node reference under the file's
path — an entry whose key is not the path of any directory, contradicting
the claimed cache invariant and key choice. -/
theorem c5_cache_keyed_by_file_path :
    cacheGet c5AfterDir.cache ("/data/a") = some ⟨0⟩ ∧
    cacheGet c5AfterDir.cache ("/data/a/f.txt") = none ∧
    cacheGet c5AfterFile.cache ("/data/a/f.txt") = some ⟨0⟩ ∧
    getDirectory c5AfterFile.store ("/data/a/f.txt") = none ∧
    getDirectory c5AfterFile.store ("/data/a") = some ⟨0⟩ := by
  decide

/-! ## C6 -/

theorem find?_append_of_none {α : Type} (f : α → Bool) (l₁ l₂ : List α)
    (h : l₁.find? f = none) : (l₁ ++ l₂).find? f = l₂.find? f := by
  induction l₁ with
  | nil => rfl
  | cons a t ih =>
      cases hfa : f a with
      | true => simp [List.find?, hfa] at h
      | false =>
          simp only [List.find?, hfa] at h
          simp only [List.cons_append, List.find?, hfa]
          exact ih h

theorem filter_nil_of_find?_none {α : Type} (f : α → Bool) (l : List α)
    (h : l.find? f = none) : l.filter f = [] := by
  induction l with
  | nil => rfl
  | cons a t ih =>
      cases hfa : f a with
      | true => simp [List.find?, hfa] at h
      | false =>
          simp only [List.find?, hfa] at h
          simp only [List.filter, hfa]
          exact ih h

theorem processDirectoryEdge_store (env : StoreEnv) (s : ServerState)
    (filePayload : FileHandlerPayload) (meta : DocumentMeta) (created : Bool) :
    (processDirectoryEdge env s filePayload meta created).store.directories =
        s.store.directories ∧
    (processDirectoryEdge env s filePayload meta created).store.nextKey =
        s.store.nextKey ∧
    ((processDirectoryEdge env s filePayload meta created).store.contains =
          s.store.contains ∨
      ∃ fromRef, (processDirectoryEdge env s filePayload meta created).store.contains =
          s.store.contains ++ [(fromRef, ("directories/") ++ toString meta.key)]) := by
  unfold processDirectoryEdge
  cases hr : resolveParent s.store s.cache (dirOf filePayload.FullPath) with
  | none => exact ⟨rfl, rfl, Or.inl rfl⟩
  | some pm =>
      cases created with
      | false => exact ⟨rfl, rfl, Or.inl rfl⟩
      | true =>
          by_cases hg : getEdge s.store (("directories/") ++ toString pm.key)
              (("directories/") ++ toString meta.key) = true
          · simp only [if_pos hg]
            exact ⟨rfl, rfl, Or.inl rfl⟩
          · simp only [if_neg hg]
            unfold createEdge
            by_cases hf : env.edgeCreateFails (("directories/") ++ toString pm.key)
                (("directories/") ++ toString meta.key) = true
            · simp only [if_pos hf]
              exact ⟨rfl, rfl, Or.inl rfl⟩
            · simp only [if_neg hf]
              exact ⟨rfl, rfl, Or.inr ⟨("directories/") ++ toString pm.key, rfl⟩⟩

theorem processDirectoryEdge_store_not_created (env : StoreEnv) (s : ServerState)
    (filePayload : FileHandlerPayload) (meta : DocumentMeta) :
    (processDirectoryEdge env s filePayload meta false).store = s.store := by
  unfold processDirectoryEdge
  cases hr : resolveParent s.store s.cache (dirOf filePayload.FullPath) with
  | none => rfl
  | some pm => rfl

theorem processDirectoryPayload_store_of_found (env : StoreEnv) (s : ServerState)
    (filePayload : FileHandlerPayload) (meta : DocumentMeta)
    (h : getDirectory s.store filePayload.FullPath = some meta) :
    (processDirectoryPayload env s filePayload).store = s.store := by
  unfold processDirectoryPayload processDirectoryTail
  simp only [h]
  exact processDirectoryEdge_store_not_created env _ filePayload meta

/-- C6: ensure-directory is idempotent under strictly sequential calls:
from any state whose store has no `DirectoryNode` for the path (and no
stray edge pointing at the key about to be generated), after two
sequential directory events for the same path the store contains exactly
one `DirectoryNode` for the path and at most one containment edge to it,
and the second call creates neither a node nor an edge (it leaves the
whole store untouched). -/
theorem c6_ensure_directory_idempotent (env : StoreEnv) (s : ServerState)
    (payload : FileHandlerPayload)
    (hget : getDirectory s.store payload.FullPath = none)
    (hfail : env.dirCreateFails payload.FullPath = false)
    (hedge : countEdgesTo s.store (("directories/") ++ toString s.store.nextKey) = 0) :
    countDirNodes
        (processDirectoryPayload env (processDirectoryPayload env s payload) payload).store
        payload.FullPath = 1 ∧
    countEdgesTo
        (processDirectoryPayload env (processDirectoryPayload env s payload) payload).store
        (("directories/") ++ toString s.store.nextKey) ≤ 1 ∧
    (processDirectoryPayload env (processDirectoryPayload env s payload) payload).store =
      (processDirectoryPayload env s payload).store := by
  have hfind : s.store.directories.find? (fun d => d.2 == payload.FullPath) = none := by
    unfold getDirectory at hget
    cases hfi : s.store.directories.find? (fun d => d.2 == payload.FullPath) with
    | none => rfl
    | some d => rw [hfi] at hget; simp at hget
  have h1 : processDirectoryPayload env s payload =
      processDirectoryEdge env
        { s with
            totalDirectoriesProcessed := s.totalDirectoriesProcessed + 1
            store := { s.store with
                directories := s.store.directories ++ [(s.store.nextKey, payload.FullPath)]
                nextKey := s.store.nextKey + 1 }
            cache := cacheSet s.cache payload.FullPath ⟨s.store.nextKey⟩ }
        payload ⟨s.store.nextKey⟩ true := by
    unfold processDirectoryPayload processDirectoryTail
    simp only [hget, createDirectoryDoc, hfail, Bool.false_eq_true, if_false]
  have hEdge1 := processDirectoryEdge_store env
    { s with
        totalDirectoriesProcessed := s.totalDirectoriesProcessed + 1
        store := { s.store with
            directories := s.store.directories ++ [(s.store.nextKey, payload.FullPath)]
            nextKey := s.store.nextKey + 1 }
        cache := cacheSet s.cache payload.FullPath ⟨s.store.nextKey⟩ }
    payload ⟨s.store.nextKey⟩ true
  have hd1 : (processDirectoryPayload env s payload).store.directories =
      s.store.directories ++ [(s.store.nextKey, payload.FullPath)] := by
    rw [h1]; exact hEdge1.1
  have hc1 : (processDirectoryPayload env s payload).store.contains = s.store.contains ∨
      ∃ fromRef, (processDirectoryPayload env s payload).store.contains =
        s.store.contains ++ [(fromRef, ("directories/") ++ toString s.store.nextKey)] := by
    rw [h1]; exact hEdge1.2.2
  have hget2 : getDirectory (processDirectoryPayload env s payload).store payload.FullPath =
      some ⟨s.store.nextKey⟩ := by
    unfold getDirectory
    rw [hd1, find?_append_of_none _ _ _ hfind]
    simp [List.find?]
  have h2 : (processDirectoryPayload env (processDirectoryPayload env s payload) payload).store =
      (processDirectoryPayload env s payload).store :=
    processDirectoryPayload_store_of_found env _ payload ⟨s.store.nextKey⟩ hget2
  have hcount1 : countDirNodes (processDirectoryPayload env s payload).store
      payload.FullPath = 1 := by
    unfold countDirNodes
    rw [hd1, List.filter_append, filter_nil_of_find?_none _ _ hfind]
    simp [List.filter]
  have hedge1 : countEdgesTo (processDirectoryPayload env s payload).store
      (("directories/") ++ toString s.store.nextKey) ≤ 1 := by
    unfold countEdgesTo at hedge ⊢
    rcases hc1 with h | ⟨fromRef, h⟩
    · rw [h, hedge]
      omega
    · rw [h, List.filter_append, List.length_append, hedge]
      simp [List.filter]
  exact ⟨by rw [h2]; exact hcount1, by rw [h2]; exact hedge1, h2⟩

/-- Witness for C6: two sequential directory events for `/data` from the
empty initial state. -/
theorem c6_witness :
    getDirectory initialServerState.store c6Payload.FullPath = none ∧
    countDirNodes
        (processDirectoryPayload noFailEnv
          (processDirectoryPayload noFailEnv initialServerState c6Payload) c6Payload).store
        c6Payload.FullPath = 1 ∧
    (processDirectoryPayload noFailEnv
        (processDirectoryPayload noFailEnv initialServerState c6Payload) c6Payload).store =
      (processDirectoryPayload noFailEnv initialServerState c6Payload).store :=
  ⟨rfl,
    (c6_ensure_directory_idempotent noFailEnv initialServerState c6Payload rfl rfl rfl).1,
    (c6_ensure_directory_idempotent noFailEnv initialServerState c6Payload rfl rfl rfl).2.2⟩

end Arango
